import Mathlib

/-!
Verification development for the `cloudflare-ddns` dynamic-DNS updater.

The reconciliation engine of `src/main.rs` is embedded as pure Lean
functions producing a trace of observable events (log lines, API patch
calls) together with an optional process exit code (`none` means the run
finished normally, `some c` means the program called `exit(c)` at that
point and nothing after it executed).

Network interactions are modelled as data: an API call either fails at
the transport level (`ApiCall.err`, reqwest returning `Err`) or yields a
`Response` carrying the HTTP status success flag and the (possibly
undecodable) JSON body, exactly the information `deserialize_response`
and `deserialize_json_value` inspect.

`std::net::IpAddr::from_str` (used by `main.rs` to compare a record's
current content against the resolved address) is embedded following the
parser of Rust `core::net`: IPv4 octets are 1-3 decimal digits with no
leading zero and value at most 255; IPv6 accepts 1-4 hex-digit groups,
a single `::` compression, and a trailing embedded IPv4 address.
-/

namespace CloudflareDdns

/-! ### IP addresses (`std::net`) -/

structure Ipv4Addr where
  a : Nat
  b : Nat
  c : Nat
  d : Nat
deriving DecidableEq

structure Ipv6Addr where
  s0 : Nat
  s1 : Nat
  s2 : Nat
  s3 : Nat
  s4 : Nat
  s5 : Nat
  s6 : Nat
  s7 : Nat
deriving DecidableEq

inductive IpAddr where
  | V4 (addr : Ipv4Addr)
  | V6 (addr : Ipv6Addr)
deriving DecidableEq

/-- ASCII uppercasing, the effect of Rust's `str::to_uppercase` on the
record-type strings compared here (written over the character list so
that it is kernel-reducible, unlike `String.toUpper`). -/
def to_uppercase (s : String) : String :=
  String.mk (s.toList.map Char.toUpper)

/-- Split a character list at every occurrence of the separator
character (the effect of `str::split`). -/
def splitOnChar (sep : Char) : List Char → List (List Char)
  | [] => [[]]
  | x :: xs =>
    if x = sep then [] :: splitOnChar sep xs
    else
      match splitOnChar sep xs with
      | r :: rs => (x :: r) :: rs
      | [] => [[x]]

def digitVal (c : Char) : Nat := c.toNat - '0'.toNat

/-- One dotted-decimal octet: 1-3 decimal digits, no leading zero
(Rust's `read_number(10, Some(3), allow_zero_prefix = false)` on `u8`). -/
def parse_octet (cs : List Char) : Option Nat :=
  if cs.length = 0 ∨ cs.length > 3 then none
  else if ¬ cs.all (fun c => c.isDigit) then none
  else if cs.length > 1 ∧ cs.head? = some '0' then none
  else
    let n := cs.foldl (fun acc c => 10 * acc + digitVal c) 0
    if n > 255 then none else some n

def parse_ipv4_chars (cs : List Char) : Option Ipv4Addr :=
  match (splitOnChar '.' cs).mapM parse_octet with
  | some [a, b, c, d] => some ⟨a, b, c, d⟩
  | _ => none

def Ipv4Addr.from_str (s : String) : Option Ipv4Addr :=
  parse_ipv4_chars s.toList

def hexVal (c : Char) : Nat :=
  if c.isDigit then c.toNat - '0'.toNat
  else if 'a' ≤ c ∧ c ≤ 'f' then c.toNat - 'a'.toNat + 10
  else c.toNat - 'A'.toNat + 10

def isHexDigitChar (c : Char) : Bool :=
  c.isDigit || ('a' ≤ c && c ≤ 'f') || ('A' ≤ c && c ≤ 'F')

/-- One IPv6 group: 1-4 hex digits, leading zeros allowed
(Rust's `read_number(16, Some(4), allow_zero_prefix = true)` on `u16`). -/
def parse_hex_group (cs : List Char) : Option Nat :=
  if cs.length = 0 ∨ cs.length > 4 then none
  else if ¬ cs.all isHexDigitChar then none
  else some (cs.foldl (fun acc c => 16 * acc + hexVal c) 0)

/-- Colon-separated groups where the last part may be an embedded IPv4
address contributing two groups (Rust's `read_groups` trying
`read_ipv4_addr` before each group; an embedded IPv4 ends the group
sequence, so it can only succeed in final position). -/
def parse_groups : List (List Char) → Option (List Nat)
  | [] => some []
  | [p] =>
    match parse_hex_group p with
    | some g => some [g]
    | none =>
      match parse_ipv4_chars p with
      | some v4 => some [v4.a * 256 + v4.b, v4.c * 256 + v4.d]
      | none => none
  | p :: q :: rest =>
    match parse_hex_group p, parse_groups (q :: rest) with
    | some g, some gs => some (g :: gs)
    | _, _ => none

/-- Groups before a `::`: a head group sequence cannot end in an embedded
IPv4 address (Rust returns `None` when `head_ipv4` is set but fewer than
8 groups were read, and 8 head groups exclude a `::`). -/
def parse_hex_groups : List (List Char) → Option (List Nat)
  | [] => some []
  | p :: rest =>
    match parse_hex_group p, parse_hex_groups rest with
    | some g, some gs => some (g :: gs)
    | _, _ => none

def mk_ipv6 (gs : List Nat) : Option Ipv6Addr :=
  match gs with
  | [g0, g1, g2, g3, g4, g5, g6, g7] => some ⟨g0, g1, g2, g3, g4, g5, g6, g7⟩
  | _ => none

/-- Split at the first `::`, if any. -/
def splitOnDoubleColon : List Char → Option (List Char × List Char)
  | a :: b :: rest =>
    if a = ':' ∧ b = ':' then some ([], rest)
    else
      match splitOnDoubleColon (b :: rest) with
      | some (l, r) => some (a :: l, r)
      | none => none
  | _ => none

def colon_parts (cs : List Char) : List (List Char) :=
  if cs.isEmpty then [] else splitOnChar ':' cs

def Ipv6Addr.from_str (s : String) : Option Ipv6Addr :=
  let cs := s.toList
  match splitOnDoubleColon cs with
  | none =>
    match parse_groups (splitOnChar ':' cs) with
    | some gs => mk_ipv6 gs
    | none => none
  | some (front, back) =>
    if (splitOnDoubleColon back).isSome then none
    else
      match parse_hex_groups (colon_parts front), parse_groups (colon_parts back) with
      | some hs, some ts =>
        if hs.length + ts.length ≤ 7 then
          mk_ipv6 (hs ++ List.replicate (8 - hs.length - ts.length) 0 ++ ts)
        else none
      | _, _ => none

/-- `IpAddr::from_str`: try IPv4, then IPv6. -/
def IpAddr.from_str (s : String) : Option IpAddr :=
  match Ipv4Addr.from_str s with
  | some v4 => some (IpAddr.V4 v4)
  | none => (Ipv6Addr.from_str s).map IpAddr.V6

/-! ### Data structures

`ListZone` as declared in `src/structs/cloudflare.rs`. For
`ListDnsRecords` and `PatchDnsRecord` we follow the fields as consumed
and constructed by `src/main.rs` (`record.type_` used as a string via
`to_uppercase`, `record.content` read as the textual current IP, and the
patch payload built with `None` everywhere except `content`); the
declarations in `structs/cloudflare.rs` disagree with those use sites,
which is recorded in the results for the affected claim. -/

structure ListZone where
  id : String
  name : String
deriving DecidableEq

structure ListDnsRecords where
  id : String
  name : String
  type_ : String
  content : String
  zone_id : String
  zone_name : String
deriving DecidableEq

structure PatchDnsRecord where
  comment : Option String
  content : Option IpAddr
  name : Option String
  proxied : Option Bool
  tags : Option (List String)
  ttl : Option Nat
deriving DecidableEq

/-- A JSON value that either decodes to an `α` or fails to decode. -/
inductive Decodable (α : Type) where
  | ok (val : α)
  | err
deriving DecidableEq

/-- The Cloudflare response envelope: `success` flag plus the flattened
rest of the body, which `deserialize_json_value` later decodes. -/
structure Cloudflare (α : Type) where
  success : Bool
  result : Decodable α
deriving DecidableEq

/-- An HTTP response: status-class success flag and the body, which
`response.json::<Cloudflare>()` may fail to decode. -/
structure Response (α : Type) where
  statusSuccess : Bool
  body : Decodable (Cloudflare α)
deriving DecidableEq

/-- Outcome of `api_get`/`api_patch`: transport error (`reqwest` `Err`)
or a response. -/
inductive ApiCall (α : Type) where
  | ok (response : Response α)
  | err
deriving DecidableEq

inductive ErrorKind where
  | ConfigPath
  | Config
  | IPv4
  | IPv6
  | Api
  | NoSuccessHttp
  | NoSuccessJson
  | Json
  | NonAddressRecord
  | Unknown
deriving DecidableEq

/-- Observable events of a run: `handle_errors` logging, the `println!`
skip/outcome lines, and the issued PATCH calls. -/
inductive Event where
  | errorLogged (e : ErrorKind)
  | skipZone (zoneName : String)
  | skipRecords (label : String)
  | patchCall (zoneId : String) (recordId : String) (payload : PatchDnsRecord)
  | alreadyUpToDate (recordType : String) (recordName : String) (zoneName : String) (ip : IpAddr)
  | updated (recordType : String) (recordName : String) (zoneName : String) (ip : IpAddr)
deriving DecidableEq

/-! ### Helper functions of `main.rs` -/

def is_http_success {α : Type} (response : Response α) : Bool :=
  response.statusSuccess

def deserialize_response {α : Type} (response : Response α) :
    Except ErrorKind (Cloudflare α) :=
  if ¬ is_http_success response then Except.error ErrorKind.NoSuccessHttp
  else
    match response.body with
    | Decodable.err => Except.error ErrorKind.Json
    | Decodable.ok data =>
      if ¬ data.success then Except.error ErrorKind.NoSuccessJson
      else Except.ok data

def deserialize_json_value {α : Type} (data : Decodable α) : Except ErrorKind α :=
  match data with
  | Decodable.err => Except.error ErrorKind.Json
  | Decodable.ok v => Except.ok v

/-- The label-to-FQDN mapping (`main.rs` lines 171-174). -/
def record_name (config_record : String) (config_zone : String) : String :=
  if config_record == "@" then config_zone
  else config_record ++ "." ++ config_zone

def obtain_zone (data : List ListZone) (zone_name : String) : Option ListZone :=
  data.find? (fun x => x.name == zone_name)

def obtain_records (data : List ListDnsRecords) (rname : String) : List ListDnsRecords :=
  (data.filter (fun x => x.name == rname)).filter
    (fun x => (to_uppercase x.type_) == "A" || (to_uppercase x.type_) == "AAAA")

/-! ### The reconciliation run (`main.rs` lines 116-266)

URL construction (`Url::parse`/`join`, exits 103/104/108/112) never
fails for the URLs built here and is not modelled. -/

def patchPayload (ip : IpAddr) : PatchDnsRecord :=
  { comment := none
    content := some ip
    name := none
    proxied := none
    tags := none
    ttl := none }

/-- Patch attempt for one record (`main.rs` lines 228-263): build the
payload, call `api_patch` (transport error ⇒ `exit(113)`), then
`deserialize_response` (`NoSuccessHttp`/`NoSuccessJson` ⇒ continue,
other decode error ⇒ `exit(114)`), else report updated. -/
def process_record_patch (patch : String → String → ApiCall Unit) (zone : ListZone)
    (record : ListDnsRecords) (ip : IpAddr) : List Event × Option Nat :=
  let call := [Event.patchCall zone.id record.id (patchPayload ip)]
  match patch zone.id record.id with
  | ApiCall.err => (call ++ [Event.errorLogged ErrorKind.Api], some 113)
  | ApiCall.ok response =>
    match deserialize_response response with
    | Except.error e =>
      (call ++ [Event.errorLogged e],
        match e with
        | ErrorKind.NoSuccessHttp => none
        | ErrorKind.NoSuccessJson => none
        | _ => some 114)
    | Except.ok _ =>
      (call ++ [Event.updated record.type_ record.name zone.name ip], none)

/-- The part of the record loop body after the desired address is known
(`main.rs` lines 221-263): if the record's current content parses as an
IP equal to the desired one, report already up-to-date; otherwise patch. -/
def process_record_ip (patch : String → String → ApiCall Unit) (zone : ListZone)
    (record : ListDnsRecords) (ip : IpAddr) : List Event × Option Nat :=
  match IpAddr.from_str record.content with
  | some current_ip =>
    if current_ip = ip then
      ([Event.alreadyUpToDate record.type_ record.name zone.name ip], none)
    else process_record_patch patch zone record ip
  | none => process_record_patch patch zone record ip

/-- One iteration of the record loop (`main.rs` lines 186-264): select
the desired address by record type (`continue 'outer` without output when
the family is unavailable; `NonAddressRecord` for other types). The Rust
`match` on `record.type_.to_uppercase().as_str()` is rendered as its
equality chain. -/
def process_record (ipv4 : Option Ipv4Addr) (ipv6 : Option Ipv6Addr)
    (patch : String → String → ApiCall Unit) (zone : ListZone)
    (record : ListDnsRecords) : List Event × Option Nat :=
  if to_uppercase record.type_ = "A" then
    match ipv4 with
    | some ip => process_record_ip patch zone record (IpAddr.V4 ip)
    | none => ([], none)
  else if to_uppercase record.type_ = "AAAA" then
    match ipv6 with
    | some ip => process_record_ip patch zone record (IpAddr.V6 ip)
    | none => ([], none)
  else ([Event.errorLogged ErrorKind.NonAddressRecord], none)

/-- Sequencing of loop iterations: once an iteration calls `exit`, the
rest of the run does not execute. -/
def andThen (step : List Event × Option Nat) (rest : List Event × Option Nat) :
    List Event × Option Nat :=
  match step with
  | (events, none) => (events ++ rest.1, rest.2)
  | (events, some code) => (events, some code)

def process_records (ipv4 : Option Ipv4Addr) (ipv6 : Option Ipv6Addr)
    (patch : String → String → ApiCall Unit) (zone : ListZone) :
    List ListDnsRecords → List Event × Option Nat
  | [] => ([], none)
  | record :: rest =>
    andThen (process_record ipv4 ipv6 patch zone record)
      (process_records ipv4 ipv6 patch zone rest)

/-- One iteration of the label loop (`main.rs` lines 170-264): compute
the FQDN, select matching records, skip when none found. -/
def process_label (ipv4 : Option Ipv4Addr) (ipv6 : Option Ipv6Addr)
    (patch : String → String → ApiCall Unit) (zone : ListZone)
    (data_records : List ListDnsRecords) (config_zone : String)
    (config_record : String) : List Event × Option Nat :=
  let records := obtain_records data_records (record_name config_record config_zone)
  if records.isEmpty then ([Event.skipRecords config_record], none)
  else process_records ipv4 ipv6 patch zone records

def process_labels (ipv4 : Option Ipv4Addr) (ipv6 : Option Ipv6Addr)
    (patch : String → String → ApiCall Unit) (zone : ListZone)
    (data_records : List ListDnsRecords) (config_zone : String) :
    List String → List Event × Option Nat
  | [] => ([], none)
  | label :: rest =>
    andThen (process_label ipv4 ipv6 patch zone data_records config_zone label)
      (process_labels ipv4 ipv6 patch zone data_records config_zone rest)

/-- One iteration of the zone loop (`main.rs` lines 116-266): match the
configured zone by name (one skip line for the whole zone when absent),
fetch its records (`api_get` transport error ⇒ `exit(109)`; envelope
`NoSuccessHttp`/`NoSuccessJson` ⇒ continue with next zone; envelope
decode error ⇒ `exit(110)`; record-list decode error ⇒ `exit(111)`),
then process the configured labels. -/
def process_zone (ipv4 : Option Ipv4Addr) (ipv6 : Option Ipv6Addr)
    (fetch : String → ApiCall (List ListDnsRecords))
    (patch : String → String → ApiCall Unit) (zones : List ListZone)
    (config_zone : String) (config_records : List String) : List Event × Option Nat :=
  match obtain_zone zones config_zone with
  | none => ([Event.skipZone config_zone], none)
  | some zone =>
    match fetch zone.id with
    | ApiCall.err => ([Event.errorLogged ErrorKind.Api], some 109)
    | ApiCall.ok response =>
      match deserialize_response response with
      | Except.error e =>
        ([Event.errorLogged e],
          match e with
          | ErrorKind.NoSuccessHttp => none
          | ErrorKind.NoSuccessJson => none
          | _ => some 110)
      | Except.ok json_records =>
        match deserialize_json_value json_records.result with
        | Except.error e => ([Event.errorLogged e], some 111)
        | Except.ok data_records =>
          process_labels ipv4 ipv6 patch zone data_records config_zone config_records

/-- The whole reconciliation loop over the configured zones (the entries
of `config.records`, in iteration order). -/
def run (ipv4 : Option Ipv4Addr) (ipv6 : Option Ipv6Addr)
    (fetch : String → ApiCall (List ListDnsRecords))
    (patch : String → String → ApiCall Unit) (zones : List ListZone) :
    List (String × List String) → List Event × Option Nat
  | [] => ([], none)
  | (config_zone, config_records) :: rest =>
    andThen (process_zone ipv4 ipv6 fetch patch zones config_zone config_records)
      (run ipv4 ipv6 fetch patch zones rest)

/-- The PATCH network actions contained in a trace. -/
def patchCalls (events : List Event) : List (String × String × PatchDnsRecord) :=
  events.filterMap (fun e =>
    match e with
    | Event.patchCall z r p => some (z, r, p)
    | _ => none)

/-- An event that acts on an AAAA record: a patch carrying an IPv6
address, or an outcome line for a record of type AAAA. -/
def isAaaaAction (e : Event) : Bool :=
  match e with
  | Event.patchCall _ _ payload =>
    match payload.content with
    | some (IpAddr.V6 _) => true
    | _ => false
  | Event.alreadyUpToDate t _ _ _ => to_uppercase t == "AAAA"
  | Event.updated t _ _ _ => to_uppercase t == "AAAA"
  | _ => false

/-- The address the engine wants a record to hold, as selected by the
type dispatch of `main.rs` lines 197-214. -/
def desiredIp (ipv4 : Option Ipv4Addr) (ipv6 : Option Ipv6Addr)
    (record : ListDnsRecords) : Option IpAddr :=
  if to_uppercase record.type_ = "A" then ipv4.map IpAddr.V4
  else if to_uppercase record.type_ = "AAAA" then ipv6.map IpAddr.V6
  else none

/-! ### Failure-free provider behaviour, for the idempotence property -/

/-- A fully successful API interaction: transport ok, HTTP 2xx, envelope
decodes, `success = true`, payload decodes. -/
def okResponse {α : Type} (v : α) : ApiCall α :=
  ApiCall.ok ⟨true, Decodable.ok ⟨true, Decodable.ok v⟩⟩

def cleanFetch (recs : String → List ListDnsRecords) :
    String → ApiCall (List ListDnsRecords) :=
  fun zid => okResponse (recs zid)

def cleanPatch : String → String → ApiCall Unit :=
  fun _ _ => okResponse ()

/-- How one remote record may look when re-fetched after a run whose
trace was `trace`, assuming no external mutation: either the run never
patched it and it is unchanged, or the run patched it to some address
and the provider now returns that record with a content string that
parses back to the patched address. -/
def recordUnchanged (trace : List Event) (zid : String)
    (r₁ r₂ : ListDnsRecords) : Prop :=
  (r₂ = r₁ ∧ ∀ p, Event.patchCall zid r₁.id p ∉ trace) ∨
  (r₂.id = r₁.id ∧ r₂.name = r₁.name ∧ r₂.type_ = r₁.type_ ∧
    ∃ p ip, Event.patchCall zid r₁.id p ∈ trace ∧ p.content = some ip ∧
      IpAddr.from_str r₂.content = some ip)

def recordsUnchanged (trace : List Event) (zid : String)
    (rs₁ rs₂ : List ListDnsRecords) : Prop :=
  List.Forall₂ (recordUnchanged trace zid) rs₁ rs₂

/-- The record list a zone's fetch yields when it fully succeeds
(transport ok, HTTP success, envelope decodes with `success = true`,
record list decodes), `none` on any failure. -/
def fetched (fetch : String → ApiCall (List ListDnsRecords)) (zid : String) :
    Option (List ListDnsRecords) :=
  match fetch zid with
  | ApiCall.err => none
  | ApiCall.ok response =>
    match deserialize_response response with
    | Except.error _ => none
    | Except.ok json_records =>
      match deserialize_json_value json_records.result with
      | Except.error _ => none
      | Except.ok data_records => some data_records

/-! ### Configuration loading (`src/config.rs`)

The filesystem is modelled as a set of directories and a map from file
paths to contents, with paths as component lists (so the root path and
the empty path, whose `Path::parent` is `None`, are `[]`). OS-level
failures of `create_dir_all` and `File::open` are outside the model. -/

abbrev FsPath := List String

structure FileSystem where
  dirs : List FsPath
  files : List (FsPath × String)
deriving DecidableEq

/-- `std::path::Path::parent`: `None` for a root/empty path. -/
def FsPath.parent (p : FsPath) : Option FsPath :=
  match p with
  | [] => none
  | _ => some p.dropLast

/-- `std::fs::create_dir_all`: create the directory and all its missing
ancestors. -/
def create_dir_all (fs : FileSystem) (p : FsPath) : FileSystem :=
  { fs with dirs := p.inits ++ fs.dirs }

/-- `File::options().read(true).write(true).append(false).truncate(false)
.create(true).open(path)` followed by `read_to_string`: returns existing
contents, or creates an empty file. -/
def open_rw_create (fs : FileSystem) (p : FsPath) : FileSystem × String :=
  match fs.files.lookup p with
  | some contents => (fs, contents)
  | none => ({ fs with files := (p, "") :: fs.files }, "")

inductive ConfigError where
  | notFound
  | parse
deriving DecidableEq

/-- Modelled from the spec: `structs::Config` (declared in
`structs/mod.rs`, which is not under `src/`) holds the provider API
token and the zone-name-to-record-labels mapping. -/
structure Config where
  api_token : String
  records : List (String × List String)
deriving DecidableEq

namespace config

/-- `config::get` (`src/config.rs` lines 25-45): take the path's parent
(`None` ⇒ `NotFound` error before any filesystem effect), create the
missing parent directories, open the file with read+write+create,
read its contents and hand them to the TOML parser. `toml::from_str`
is an external library function, passed in as a parameter. -/
def get (toml_from_str : String → Except ConfigError Config)
    (fs : FileSystem) (path : FsPath) :
    FileSystem × Except ConfigError Config :=
  match FsPath.parent path with
  | none => (fs, Except.error ConfigError.notFound)
  | some parent =>
    let fs₁ := create_dir_all fs parent
    let opened := open_rw_create fs₁ path
    (opened.1, toml_from_str opened.2)

end config

/-! ### Concrete scenarios used by the claims -/

def zoneZ1 : ListZone := ⟨"z1", "example.com"⟩

def recordR1 : ListDnsRecords :=
  ⟨"r1", "example.com", "A", "1.1.1.1", "z1", "example.com"⟩

def recordR2 : ListDnsRecords :=
  ⟨"r2", "www.example.com", "A", "9.9.9.9", "z1", "example.com"⟩

def ipv4Resolved : Ipv4Addr := ⟨2, 2, 2, 2⟩

def cfgExample : List (String × List String) := [("example.com", ["@", "www"])]

def fetchExample : String → ApiCall (List ListDnsRecords) :=
  fun zid => if zid = "z1" then okResponse [recordR1, recordR2] else ApiCall.err

def patchOk : String → String → ApiCall Unit := cleanPatch

/-- `recordR1` as the provider returns it after it was patched to
`2.2.2.2`. -/
def recordR1after : ListDnsRecords :=
  ⟨"r1", "example.com", "A", "2.2.2.2", "z1", "example.com"⟩

/-- `recordR2` as the provider returns it after it was patched to
`2.2.2.2`. -/
def recordR2after : ListDnsRecords :=
  ⟨"r2", "www.example.com", "A", "2.2.2.2", "z1", "example.com"⟩

/-- Remote record state seen by a first reconciliation run. -/
def recsFirst : String → List ListDnsRecords :=
  fun zid => if zid = "z1" then [recordR1, recordR2] else []

/-- Remote record state seen by a second reconciliation run, after the
first run's patches were applied by the provider. -/
def recsSecond : String → List ListDnsRecords :=
  fun zid => if zid = "z1" then [recordR1after, recordR2after] else []

/-- A provider whose PATCH endpoint fails at the transport level. -/
def patchTransportErr : String → String → ApiCall Unit := fun _ _ => ApiCall.err

/-- A provider whose record-list endpoint fails at the transport level. -/
def fetchTransportErr : String → ApiCall (List ListDnsRecords) := fun _ => ApiCall.err

/-- A provider whose PATCH endpoint answers with a non-2xx HTTP status. -/
def patchHttpFail : String → String → ApiCall Unit :=
  fun _ _ => ApiCall.ok ⟨false, Decodable.err⟩

/-- A provider whose record-list endpoint answers with a non-2xx HTTP
status. -/
def fetchHttpFail : String → ApiCall (List ListDnsRecords) :=
  fun _ => ApiCall.ok ⟨false, Decodable.err⟩

/-! ## Helper lemmas -/

theorem mem_andThen {e : Event} {a b : List Event × Option Nat}
    (h : e ∈ (andThen a b).1) : e ∈ a.1 ∨ e ∈ b.1 := by
  obtain ⟨ev, ex⟩ := a
  cases ex with
  | none =>
    have h' : e ∈ ev ++ b.1 := h
    exact List.mem_append.1 h'
  | some c => exact Or.inl h

theorem process_record_of_desired {ipv4 : Option Ipv4Addr} {ipv6 : Option Ipv6Addr}
    {patch : String → String → ApiCall Unit} {zone : ListZone}
    {record : ListDnsRecords} {ip : IpAddr}
    (h : desiredIp ipv4 ipv6 record = some ip) :
    process_record ipv4 ipv6 patch zone record = process_record_ip patch zone record ip := by
  unfold desiredIp at h
  unfold process_record
  by_cases hA : to_uppercase record.type_ = "A"
  · simp only [if_pos hA] at h ⊢
    cases ipv4 with
    | none => simp at h
    | some a =>
      simp only [Option.map_some', Option.some.injEq] at h
      rw [← h]
  · by_cases hB : to_uppercase record.type_ = "AAAA"
    · simp only [if_neg hA, if_pos hB] at h ⊢
      cases ipv6 with
      | none => simp at h
      | some b =>
        simp only [Option.map_some', Option.some.injEq] at h
        rw [← h]
    · simp only [if_neg hA, if_neg hB] at h
      exact absurd h (by simp)

theorem process_record_none_of_unavailable {ipv4 : Option Ipv4Addr} {ipv6 : Option Ipv6Addr}
    {patch : String → String → ApiCall Unit} {zone : ListZone} {record : ListDnsRecords}
    (hAorAaaa : to_uppercase record.type_ = "A" ∨ to_uppercase record.type_ = "AAAA")
    (h : desiredIp ipv4 ipv6 record = none) :
    process_record ipv4 ipv6 patch zone record = ([], none) := by
  unfold desiredIp at h
  unfold process_record
  rcases hAorAaaa with hA | hB
  · simp only [if_pos hA] at h ⊢
    cases ipv4 with
    | none => rfl
    | some a => simp at h
  · have hA : to_uppercase record.type_ ≠ "A" := by rw [hB]; decide
    simp only [if_neg hA, if_pos hB] at h ⊢
    cases ipv6 with
    | none => rfl
    | some b => simp at h

theorem process_record_ip_not_current {patch : String → String → ApiCall Unit}
    {zone : ListZone} {record : ListDnsRecords} {ip : IpAddr}
    (h : IpAddr.from_str record.content ≠ some ip) :
    process_record_ip patch zone record ip = process_record_patch patch zone record ip := by
  unfold process_record_ip
  cases hc : IpAddr.from_str record.content with
  | none => rfl
  | some c =>
    have hne : c ≠ ip := fun hh => h (by rw [hc, hh])
    simp [hne]

theorem process_record_ip_current {patch : String → String → ApiCall Unit}
    {zone : ListZone} {record : ListDnsRecords} {ip : IpAddr}
    (h : IpAddr.from_str record.content = some ip) :
    process_record_ip patch zone record ip =
      ([Event.alreadyUpToDate record.type_ record.name zone.name ip], none) := by
  unfold process_record_ip
  rw [h]
  simp

theorem process_record_patch_nosuccess {patch : String → String → ApiCall Unit}
    {zone : ListZone} {record : ListDnsRecords} {ip : IpAddr}
    {resp : Response Unit} {e : ErrorKind}
    (hcall : patch zone.id record.id = ApiCall.ok resp)
    (hde : deserialize_response resp = Except.error e)
    (he : e = ErrorKind.NoSuccessHttp ∨ e = ErrorKind.NoSuccessJson) :
    process_record_patch patch zone record ip =
      ([Event.patchCall zone.id record.id (patchPayload ip), Event.errorLogged e], none) := by
  unfold process_record_patch
  rw [hcall]
  simp only [hde]
  rcases he with h | h <;> subst h <;> rfl

/-! ## Claims -/

/-- C3: for every configured zone name `Z` and record label `L`, the
target FQDN is exactly `Z` when `L = "@"` and exactly `L ++ "." ++ Z`
otherwise (exact string equality, no normalization). -/
theorem fqdn_mapping (L Z : String) :
    (L = "@" → record_name L Z = Z) ∧
    (L ≠ "@" → record_name L Z = L ++ "." ++ Z) := by
  constructor
  · intro h
    simp [record_name, h]
  · intro h
    simp only [record_name]
    rw [if_neg (by simpa using h)]

theorem fqdn_mapping_witness :
    record_name "@" "example.com" = "example.com" ∧
    record_name "www" "example.com" = "www.example.com" := by
  constructor
  · exact (fqdn_mapping "@" "example.com").1 rfl
  · rw [(fqdn_mapping "www" "example.com").2 (by decide)]
    decide

/-- C1: in the end-to-end example (zone `example.com` with labels `@`
and `www`, provider zone `z1`, records `r1`/`r2` of type A holding
`1.1.1.1`/`9.9.9.9`, resolved IPv4 `2.2.2.2`, no IPv6) the run issues
exactly two patch calls, `r1` and `r2` both to `2.2.2.2`, both reported
updated, and performs zero actions on AAAA records. -/
theorem end_to_end_example :
    run (some ipv4Resolved) none fetchExample patchOk [zoneZ1] cfgExample =
      ([Event.patchCall "z1" "r1" (patchPayload (IpAddr.V4 ipv4Resolved)),
        Event.updated "A" "example.com" "example.com" (IpAddr.V4 ipv4Resolved),
        Event.patchCall "z1" "r2" (patchPayload (IpAddr.V4 ipv4Resolved)),
        Event.updated "A" "www.example.com" "example.com" (IpAddr.V4 ipv4Resolved)], none) ∧
    patchCalls (run (some ipv4Resolved) none fetchExample patchOk [zoneZ1] cfgExample).1 =
      [("z1", "r1", patchPayload (IpAddr.V4 ipv4Resolved)),
        ("z1", "r2", patchPayload (IpAddr.V4 ipv4Resolved))] ∧
    (run (some ipv4Resolved) none fetchExample patchOk [zoneZ1] cfgExample).1.filter
      isAaaaAction = [] := by
  refine ⟨by decide, by decide, by decide⟩

/-- C2 (amended): when a PATCH attempt for a record comes back with a
non-success HTTP status or a non-success envelope, the failure is
per-record — it is logged and processing continues with the next
record; a transport error or an envelope-decode failure on the PATCH
call, however, aborts the whole run (exit 113 / 114). -/
theorem patch_nosuccess_per_record (ipv4 : Option Ipv4Addr) (ipv6 : Option Ipv6Addr)
    (patch : String → String → ApiCall Unit) (zone : ListZone)
    (record : ListDnsRecords) (rest : List ListDnsRecords) (ip : IpAddr)
    (resp : Response Unit) (e : ErrorKind)
    (hip : desiredIp ipv4 ipv6 record = some ip)
    (hcur : IpAddr.from_str record.content ≠ some ip)
    (hcall : patch zone.id record.id = ApiCall.ok resp)
    (hde : deserialize_response resp = Except.error e)
    (he : e = ErrorKind.NoSuccessHttp ∨ e = ErrorKind.NoSuccessJson) :
    process_record ipv4 ipv6 patch zone record =
      ([Event.patchCall zone.id record.id (patchPayload ip), Event.errorLogged e], none) ∧
    process_records ipv4 ipv6 patch zone (record :: rest) =
      ([Event.patchCall zone.id record.id (patchPayload ip), Event.errorLogged e]
          ++ (process_records ipv4 ipv6 patch zone rest).1,
        (process_records ipv4 ipv6 patch zone rest).2) := by
  have h1 : process_record ipv4 ipv6 patch zone record =
      ([Event.patchCall zone.id record.id (patchPayload ip), Event.errorLogged e], none) :=
    (process_record_of_desired hip).trans
      ((process_record_ip_not_current hcur).trans
        (process_record_patch_nosuccess hcall hde he))
  refine ⟨h1, ?_⟩
  show andThen (process_record ipv4 ipv6 patch zone record)
      (process_records ipv4 ipv6 patch zone rest) = _
  rw [h1]
  rfl

theorem patch_nosuccess_per_record_witness :
    process_record (some ipv4Resolved) none patchHttpFail zoneZ1 recordR1 =
      ([Event.patchCall "z1" "r1" (patchPayload (IpAddr.V4 ipv4Resolved)),
        Event.errorLogged ErrorKind.NoSuccessHttp], none) ∧
    process_records (some ipv4Resolved) none patchHttpFail zoneZ1 [recordR1, recordR2] =
      ([Event.patchCall "z1" "r1" (patchPayload (IpAddr.V4 ipv4Resolved)),
        Event.errorLogged ErrorKind.NoSuccessHttp]
          ++ (process_records (some ipv4Resolved) none patchHttpFail zoneZ1 [recordR2]).1,
        (process_records (some ipv4Resolved) none patchHttpFail zoneZ1 [recordR2]).2) :=
  patch_nosuccess_per_record (some ipv4Resolved) none patchHttpFail zoneZ1 recordR1
    [recordR2] (IpAddr.V4 ipv4Resolved) ⟨false, Decodable.err⟩ ErrorKind.NoSuccessHttp
    (by decide) (by decide) rfl rfl (Or.inl rfl)

/-- C2 counterexample: a transport-level failure of a single PATCH call
aborts the whole run with exit code 113 — the next record (`r2`) is
never processed, so a patch failure is not always per-record. -/
theorem patch_transport_error_aborts_run :
    run (some ipv4Resolved) none fetchExample patchTransportErr [zoneZ1] cfgExample =
      ([Event.patchCall "z1" "r1" (patchPayload (IpAddr.V4 ipv4Resolved)),
        Event.errorLogged ErrorKind.Api], some 113) ∧
    ¬ (run (some ipv4Resolved) none fetchExample patchTransportErr [zoneZ1]
        cfgExample).2 = none := by
  refine ⟨by decide, by decide⟩

/-- C5 (amended): when fetching a matched zone's records comes back
with a non-success HTTP status or a non-success envelope, the failure
is per-zone — it is logged and processing continues with the next
configured zone; a transport error (exit 109) or a JSON-decode failure
(exit 110 / 111) while fetching, however, aborts the whole run. -/
theorem record_fetch_nosuccess_per_zone (ipv4 : Option Ipv4Addr) (ipv6 : Option Ipv6Addr)
    (fetch : String → ApiCall (List ListDnsRecords))
    (patch : String → String → ApiCall Unit) (zones : List ListZone)
    (config_zone : String) (labels : List String)
    (rest : List (String × List String)) (zone : ListZone)
    (resp : Response (List ListDnsRecords)) (e : ErrorKind)
    (hz : obtain_zone zones config_zone = some zone)
    (hcall : fetch zone.id = ApiCall.ok resp)
    (hde : deserialize_response resp = Except.error e)
    (he : e = ErrorKind.NoSuccessHttp ∨ e = ErrorKind.NoSuccessJson) :
    process_zone ipv4 ipv6 fetch patch zones config_zone labels =
      ([Event.errorLogged e], none) ∧
    run ipv4 ipv6 fetch patch zones ((config_zone, labels) :: rest) =
      (Event.errorLogged e :: (run ipv4 ipv6 fetch patch zones rest).1,
        (run ipv4 ipv6 fetch patch zones rest).2) := by
  have h1 : process_zone ipv4 ipv6 fetch patch zones config_zone labels =
      ([Event.errorLogged e], none) := by
    unfold process_zone
    simp only [hz, hcall, hde]
    rcases he with h | h <;> subst h <;> rfl
  refine ⟨h1, ?_⟩
  show andThen (process_zone ipv4 ipv6 fetch patch zones config_zone labels)
      (run ipv4 ipv6 fetch patch zones rest) = _
  rw [h1]
  rfl

theorem record_fetch_nosuccess_per_zone_witness :
    process_zone (some ipv4Resolved) none fetchHttpFail patchOk [zoneZ1]
        "example.com" ["@", "www"] = ([Event.errorLogged ErrorKind.NoSuccessHttp], none) ∧
    run (some ipv4Resolved) none fetchHttpFail patchOk [zoneZ1]
        [("example.com", ["@", "www"]), ("other.com", ["@"])] =
      (Event.errorLogged ErrorKind.NoSuccessHttp ::
          (run (some ipv4Resolved) none fetchHttpFail patchOk [zoneZ1] [("other.com", ["@"])]).1,
        (run (some ipv4Resolved) none fetchHttpFail patchOk [zoneZ1] [("other.com", ["@"])]).2) :=
  record_fetch_nosuccess_per_zone (some ipv4Resolved) none fetchHttpFail patchOk [zoneZ1]
    "example.com" ["@", "www"] [("other.com", ["@"])] zoneZ1 ⟨false, Decodable.err⟩
    ErrorKind.NoSuccessHttp (by decide) rfl rfl (Or.inl rfl)

/-- C5 counterexample: a transport-level failure while fetching the
records of the first configured zone aborts the whole run with exit
code 109 — the second configured zone is never processed, so a
transport failure during record fetch is not a per-zone failure. -/
theorem record_fetch_transport_error_aborts_run :
    run (some ipv4Resolved) none fetchTransportErr patchOk
        [zoneZ1, ⟨"z2", "other.com"⟩]
        [("example.com", ["@"]), ("other.com", ["@"])] =
      ([Event.errorLogged ErrorKind.Api], some 109) ∧
    ¬ (run (some ipv4Resolved) none fetchTransportErr patchOk
        [zoneZ1, ⟨"z2", "other.com"⟩]
        [("example.com", ["@"]), ("other.com", ["@"])]).2 = none := by
  refine ⟨by decide, by decide⟩

/-- C6 (amended): a configured zone name with no provider zone of that
name produces a single "zone not found" skip outcome for the zone as a
whole (not one per label), no patch calls for that zone, and the
remaining configured zones are processed unaffected. -/
theorem zone_miss_single_skip_and_continue (ipv4 : Option Ipv4Addr) (ipv6 : Option Ipv6Addr)
    (fetch : String → ApiCall (List ListDnsRecords))
    (patch : String → String → ApiCall Unit) (zones : List ListZone)
    (config_zone : String) (labels : List String)
    (rest : List (String × List String))
    (h : obtain_zone zones config_zone = none) :
    process_zone ipv4 ipv6 fetch patch zones config_zone labels =
      ([Event.skipZone config_zone], none) ∧
    patchCalls [Event.skipZone config_zone] = [] ∧
    run ipv4 ipv6 fetch patch zones ((config_zone, labels) :: rest) =
      (Event.skipZone config_zone :: (run ipv4 ipv6 fetch patch zones rest).1,
        (run ipv4 ipv6 fetch patch zones rest).2) := by
  have h1 : process_zone ipv4 ipv6 fetch patch zones config_zone labels =
      ([Event.skipZone config_zone], none) := by
    unfold process_zone
    rw [h]
  refine ⟨h1, rfl, ?_⟩
  show andThen (process_zone ipv4 ipv6 fetch patch zones config_zone labels)
      (run ipv4 ipv6 fetch patch zones rest) = _
  rw [h1]
  rfl

theorem zone_miss_single_skip_and_continue_witness :
    process_zone (some ipv4Resolved) none fetchExample patchOk []
        "example.com" ["@", "www"] = ([Event.skipZone "example.com"], none) ∧
    patchCalls [Event.skipZone "example.com"] = [] ∧
    run (some ipv4Resolved) none fetchExample patchOk []
        [("example.com", ["@", "www"]), ("other.com", ["@"])] =
      (Event.skipZone "example.com" ::
          (run (some ipv4Resolved) none fetchExample patchOk [] [("other.com", ["@"])]).1,
        (run (some ipv4Resolved) none fetchExample patchOk [] [("other.com", ["@"])]).2) :=
  zone_miss_single_skip_and_continue (some ipv4Resolved) none fetchExample patchOk []
    "example.com" ["@", "www"] [("other.com", ["@"])] (by decide)

/-- C6 counterexample: for a missed zone configured with the two labels
`@` and `www`, the whole trace contains exactly one "zone not found"
skip outcome, not one per label. -/
theorem zone_miss_one_skip_for_two_labels :
    run (some ipv4Resolved) none fetchExample patchOk []
        [("example.com", ["@", "www"])] = ([Event.skipZone "example.com"], none) ∧
    ¬ (run (some ipv4Resolved) none fetchExample patchOk []
        [("example.com", ["@", "www"])]).1.count (Event.skipZone "example.com") = 2 := by
  refine ⟨by decide, by decide⟩

/-- C7: with IPv4 resolved and IPv6 unresolved, every AAAA record is
skipped without any action or patch call, while the processing of an A
record is exactly what it is when IPv6 is available; symmetrically with
the families swapped. -/
theorem family_unavailable_isolation (a : Ipv4Addr) (b : Ipv6Addr)
    (patch : String → String → ApiCall Unit) (zone : ListZone)
    (record : ListDnsRecords) :
    (to_uppercase record.type_ = "AAAA" →
      process_record (some a) none patch zone record = ([], none)) ∧
    (to_uppercase record.type_ = "A" →
      process_record (some a) none patch zone record =
        process_record (some a) (some b) patch zone record) ∧
    (to_uppercase record.type_ = "A" →
      process_record none (some b) patch zone record = ([], none)) ∧
    (to_uppercase record.type_ = "AAAA" →
      process_record none (some b) patch zone record =
        process_record (some a) (some b) patch zone record) := by
  refine ⟨?_, ?_, ?_, ?_⟩ <;> intro h <;> simp [process_record, h]

theorem family_unavailable_isolation_witness :
    (process_record (some ipv4Resolved) none patchOk zoneZ1
        ⟨"r3", "example.com", "AAAA", "::1", "z1", "example.com"⟩ = ([], none)) ∧
    (process_record (some ipv4Resolved) none patchOk zoneZ1 recordR1 =
      process_record (some ipv4Resolved) (some ⟨0, 0, 0, 0, 0, 0, 0, 1⟩) patchOk zoneZ1 recordR1) := by
  constructor
  · exact (family_unavailable_isolation ipv4Resolved ⟨0, 0, 0, 0, 0, 0, 0, 1⟩ patchOk zoneZ1
      ⟨"r3", "example.com", "AAAA", "::1", "z1", "example.com"⟩).1 (by decide)
  · exact (family_unavailable_isolation ipv4Resolved ⟨0, 0, 0, 0, 0, 0, 0, 1⟩ patchOk zoneZ1
      recordR1).2.1 (by decide)

theorem mem_obtain_records {data : List ListDnsRecords} {rn : String}
    {r : ListDnsRecords} :
    r ∈ obtain_records data rn ↔
      r ∈ data ∧ r.name = rn ∧
        (to_uppercase r.type_ = "A" ∨ to_uppercase r.type_ = "AAAA") := by
  unfold obtain_records
  constructor
  · intro h
    have h1 := List.mem_filter.1 h
    have h2 := List.mem_filter.1 h1.1
    exact ⟨h2.1, by simpa using h2.2, by simpa using h1.2⟩
  · rintro ⟨h1, h2, h3⟩
    exact List.mem_filter.2 ⟨List.mem_filter.2 ⟨h1, by simpa using h2⟩, by simpa using h3⟩

/-- C8: the selection returns exactly the fetched records whose name
equals the FQDN and whose type matches A or AAAA case-insensitively; an
empty selection yields a single "record not found" skip for the label,
no patch call, and processing continues with the next label. -/
theorem record_selection_and_miss_skip (data : List ListDnsRecords) (rname : String)
    (r : ListDnsRecords) (ipv4 : Option Ipv4Addr) (ipv6 : Option Ipv6Addr)
    (patch : String → String → ApiCall Unit) (zone : ListZone)
    (config_zone config_record : String) (rest : List String) :
    (r ∈ obtain_records data rname ↔
      r ∈ data ∧ r.name = rname ∧
        (to_uppercase r.type_ = "A" ∨ to_uppercase r.type_ = "AAAA")) ∧
    (obtain_records data (record_name config_record config_zone) = [] →
      process_label ipv4 ipv6 patch zone data config_zone config_record =
        ([Event.skipRecords config_record], none) ∧
      patchCalls [Event.skipRecords config_record] = [] ∧
      process_labels ipv4 ipv6 patch zone data config_zone (config_record :: rest) =
        (Event.skipRecords config_record ::
            (process_labels ipv4 ipv6 patch zone data config_zone rest).1,
          (process_labels ipv4 ipv6 patch zone data config_zone rest).2)) := by
  refine ⟨mem_obtain_records, ?_⟩
  intro h
  have h1 : process_label ipv4 ipv6 patch zone data config_zone config_record =
      ([Event.skipRecords config_record], none) := by
    unfold process_label
    simp only [h]
    rfl
  refine ⟨h1, rfl, ?_⟩
  show andThen (process_label ipv4 ipv6 patch zone data config_zone config_record)
      (process_labels ipv4 ipv6 patch zone data config_zone rest) = _
  rw [h1]
  rfl

theorem record_selection_and_miss_skip_witness :
    (recordR1 ∈ obtain_records [recordR1, recordR2] "example.com" ↔
      recordR1 ∈ [recordR1, recordR2] ∧ recordR1.name = "example.com" ∧
        (to_uppercase recordR1.type_ = "A" ∨ to_uppercase recordR1.type_ = "AAAA")) ∧
    (process_label (some ipv4Resolved) none patchOk zoneZ1 [recordR1, recordR2]
        "example.com" "mail" = ([Event.skipRecords "mail"], none) ∧
      patchCalls [Event.skipRecords "mail"] = [] ∧
      process_labels (some ipv4Resolved) none patchOk zoneZ1 [recordR1, recordR2]
          "example.com" ["mail", "www"] =
        (Event.skipRecords "mail" ::
            (process_labels (some ipv4Resolved) none patchOk zoneZ1 [recordR1, recordR2]
              "example.com" ["www"]).1,
          (process_labels (some ipv4Resolved) none patchOk zoneZ1 [recordR1, recordR2]
            "example.com" ["www"]).2)) :=
  ⟨(record_selection_and_miss_skip [recordR1, recordR2] "example.com" recordR1
      (some ipv4Resolved) none patchOk zoneZ1 "example.com" "mail" ["www"]).1,
    (record_selection_and_miss_skip [recordR1, recordR2] "example.com" recordR1
      (some ipv4Resolved) none patchOk zoneZ1 "example.com" "mail" ["www"]).2 (by decide)⟩

/-- C10 (amended): for every path that has a parent, `config::get`
creates the missing parent directories, opens the file with
create+write so a missing configuration file is created empty, and
hands the (possibly empty) contents to the TOML parser; a parentless
path instead fails with a not-found error before touching the
filesystem. -/
theorem config_get_creates_file (toml_from_str : String → Except ConfigError Config)
    (fs : FileSystem) (p : FsPath)
    (hp : p ≠ [])
    (habsent : fs.files.lookup p = none) :
    (config.get toml_from_str fs p).2 = toml_from_str "" ∧
    (p, "") ∈ (config.get toml_from_str fs p).1.files ∧
    ∀ q ∈ p.dropLast.inits, q ∈ (config.get toml_from_str fs p).1.dirs := by
  have hpar : FsPath.parent p = some p.dropLast := by
    cases p with
    | nil => exact absurd rfl hp
    | cons x xs => rfl
  have hget : config.get toml_from_str fs p =
      (⟨p.dropLast.inits ++ fs.dirs, (p, "") :: fs.files⟩, toml_from_str "") := by
    unfold config.get create_dir_all open_rw_create
    rw [hpar]
    simp only [habsent]
  rw [hget]
  exact ⟨rfl, List.mem_cons_self _ _, fun q hq => List.mem_append_left _ hq⟩

theorem config_get_creates_file_witness :
    (config.get (fun _ => Except.error ConfigError.parse) ⟨[], []⟩
        ["home", "cloudflare-ddns.toml"]).2 = Except.error ConfigError.parse ∧
    (["home", "cloudflare-ddns.toml"], "") ∈
      (config.get (fun _ => Except.error ConfigError.parse) ⟨[], []⟩
        ["home", "cloudflare-ddns.toml"]).1.files ∧
    ∀ q ∈ (["home", "cloudflare-ddns.toml"] : FsPath).dropLast.inits,
      q ∈ (config.get (fun _ => Except.error ConfigError.parse) ⟨[], []⟩
        ["home", "cloudflare-ddns.toml"]).1.dirs :=
  config_get_creates_file (fun _ => Except.error ConfigError.parse) ⟨[], []⟩
    ["home", "cloudflare-ddns.toml"] (by decide) rfl

/-- C10 counterexample: for the root/empty path, whose `Path::parent`
is `None`, `config::get` fails with a not-found error and leaves the
filesystem untouched — no file is created and nothing is parsed, so the
claim does not hold for every path. -/
theorem config_get_no_parent_not_found :
    config.get (fun _ => Except.error ConfigError.parse) ⟨[], []⟩ [] =
      (⟨[], []⟩, Except.error ConfigError.notFound) := rfl

/-! ## Where patch calls come from: soundness of the trace -/

theorem patchCall_process_record_patch {patch : String → String → ApiCall Unit}
    {zone : ListZone} {record : ListDnsRecords} {ip : IpAddr}
    {zid rid : String} {p : PatchDnsRecord}
    (h : Event.patchCall zid rid p ∈ (process_record_patch patch zone record ip).1) :
    zid = zone.id ∧ rid = record.id ∧ p = patchPayload ip := by
  unfold process_record_patch at h
  cases hc : patch zone.id record.id with
  | err =>
    simp [hc] at h
    exact h
  | ok resp =>
    cases hd : deserialize_response resp with
    | error e =>
      simp [hc, hd] at h
      exact h
    | ok d =>
      simp [hc, hd] at h
      exact h

theorem patchCall_process_record_ip {patch : String → String → ApiCall Unit}
    {zone : ListZone} {record : ListDnsRecords} {ip : IpAddr}
    {zid rid : String} {p : PatchDnsRecord}
    (h : Event.patchCall zid rid p ∈ (process_record_ip patch zone record ip).1) :
    zid = zone.id ∧ rid = record.id ∧ p = patchPayload ip ∧
      IpAddr.from_str record.content ≠ some ip := by
  unfold process_record_ip at h
  cases hc : IpAddr.from_str record.content with
  | none =>
    rw [hc] at h
    obtain ⟨h1, h2, h3⟩ := patchCall_process_record_patch h
    exact ⟨h1, h2, h3, by simp⟩
  | some cur =>
    rw [hc] at h
    have h' : Event.patchCall zid rid p ∈
        (if cur = ip then
          ([Event.alreadyUpToDate record.type_ record.name zone.name ip], none)
        else process_record_patch patch zone record ip).1 := h
    by_cases hcur : cur = ip
    · rw [if_pos hcur] at h'
      simp at h'
    · rw [if_neg hcur] at h'
      obtain ⟨h1, h2, h3⟩ := patchCall_process_record_patch h'
      exact ⟨h1, h2, h3, fun hh => hcur (Option.some.inj hh)⟩

theorem patchCall_process_record {ipv4 : Option Ipv4Addr} {ipv6 : Option Ipv6Addr}
    {patch : String → String → ApiCall Unit} {zone : ListZone}
    {record : ListDnsRecords} {zid rid : String} {p : PatchDnsRecord}
    (h : Event.patchCall zid rid p ∈ (process_record ipv4 ipv6 patch zone record).1) :
    zid = zone.id ∧ rid = record.id ∧
      ∃ ip, desiredIp ipv4 ipv6 record = some ip ∧ p = patchPayload ip ∧
        IpAddr.from_str record.content ≠ some ip := by
  unfold process_record at h
  by_cases hA : to_uppercase record.type_ = "A"
  · rw [if_pos hA] at h
    cases ipv4 with
    | none => simp at h
    | some a =>
      obtain ⟨h1, h2, h3, h4⟩ := patchCall_process_record_ip h
      exact ⟨h1, h2, IpAddr.V4 a, by simp [desiredIp, hA], h3, h4⟩
  · rw [if_neg hA] at h
    by_cases hB : to_uppercase record.type_ = "AAAA"
    · rw [if_pos hB] at h
      cases ipv6 with
      | none => simp at h
      | some b =>
        obtain ⟨h1, h2, h3, h4⟩ := patchCall_process_record_ip h
        exact ⟨h1, h2, IpAddr.V6 b, by simp [desiredIp, hA, hB], h3, h4⟩
    · rw [if_neg hB] at h
      simp at h

theorem mem_process_records {ipv4 : Option Ipv4Addr} {ipv6 : Option Ipv6Addr}
    {patch : String → String → ApiCall Unit} {zone : ListZone} {e : Event} :
    ∀ {records : List ListDnsRecords},
      e ∈ (process_records ipv4 ipv6 patch zone records).1 →
      ∃ record ∈ records, e ∈ (process_record ipv4 ipv6 patch zone record).1
  | [], h => absurd h (by simp [process_records])
  | r :: rs, h => by
    unfold process_records at h
    rcases mem_andThen h with h' | h'
    · exact ⟨r, List.mem_cons_self r rs, h'⟩
    · obtain ⟨rec, hmem, hin⟩ := mem_process_records h'
      exact ⟨rec, List.mem_cons_of_mem r hmem, hin⟩

theorem mem_process_label {ipv4 : Option Ipv4Addr} {ipv6 : Option Ipv6Addr}
    {patch : String → String → ApiCall Unit} {zone : ListZone}
    {data_records : List ListDnsRecords} {config_zone config_record : String} {e : Event}
    (h : e ∈ (process_label ipv4 ipv6 patch zone data_records config_zone config_record).1) :
    e = Event.skipRecords config_record ∨
      e ∈ (process_records ipv4 ipv6 patch zone
        (obtain_records data_records (record_name config_record config_zone))).1 := by
  simp only [process_label] at h
  split at h
  · simp only [List.mem_singleton] at h
    exact Or.inl h
  · exact Or.inr h

theorem mem_process_labels {ipv4 : Option Ipv4Addr} {ipv6 : Option Ipv6Addr}
    {patch : String → String → ApiCall Unit} {zone : ListZone}
    {data_records : List ListDnsRecords} {config_zone : String} {e : Event} :
    ∀ {labels : List String},
      e ∈ (process_labels ipv4 ipv6 patch zone data_records config_zone labels).1 →
      ∃ label ∈ labels,
        e ∈ (process_label ipv4 ipv6 patch zone data_records config_zone label).1
  | [], h => absurd h (by simp [process_labels])
  | l :: ls, h => by
    unfold process_labels at h
    rcases mem_andThen h with h' | h'
    · exact ⟨l, List.mem_cons_self l ls, h'⟩
    · obtain ⟨lab, hmem, hin⟩ := mem_process_labels h'
      exact ⟨lab, List.mem_cons_of_mem l hmem, hin⟩

theorem patchCall_process_zone {ipv4 : Option Ipv4Addr} {ipv6 : Option Ipv6Addr}
    {fetch : String → ApiCall (List ListDnsRecords)}
    {patch : String → String → ApiCall Unit} {zones : List ListZone}
    {config_zone : String} {labels : List String} {zid rid : String} {p : PatchDnsRecord}
    (h : Event.patchCall zid rid p ∈
      (process_zone ipv4 ipv6 fetch patch zones config_zone labels).1) :
    ∃ zone data_records, obtain_zone zones config_zone = some zone ∧
      fetched fetch zone.id = some data_records ∧
      Event.patchCall zid rid p ∈
        (process_labels ipv4 ipv6 patch zone data_records config_zone labels).1 := by
  unfold process_zone at h
  cases hz : obtain_zone zones config_zone with
  | none => simp [hz] at h
  | some zone =>
    simp only [hz] at h
    cases hf : fetch zone.id with
    | err => simp [hf] at h
    | ok response =>
      simp only [hf] at h
      cases hd : deserialize_response response with
      | error e => simp [hd] at h
      | ok json_records =>
        simp only [hd] at h
        cases hv : deserialize_json_value json_records.result with
        | error e => simp [hv] at h
        | ok data_records =>
          simp only [hv] at h
          refine ⟨zone, data_records, rfl, ?_, h⟩
          simp only [fetched, hf, hd, hv]

theorem patchCall_run {ipv4 : Option Ipv4Addr} {ipv6 : Option Ipv6Addr}
    {fetch : String → ApiCall (List ListDnsRecords)}
    {patch : String → String → ApiCall Unit} {zones : List ListZone}
    {zid rid : String} {p : PatchDnsRecord} :
    ∀ {cfg : List (String × List String)},
      Event.patchCall zid rid p ∈ (run ipv4 ipv6 fetch patch zones cfg).1 →
      ∃ config_zone labels, (config_zone, labels) ∈ cfg ∧
        Event.patchCall zid rid p ∈
          (process_zone ipv4 ipv6 fetch patch zones config_zone labels).1
  | [], h => absurd h (by simp [run])
  | (cz, labels) :: rest, h => by
    unfold run at h
    rcases mem_andThen h with h' | h'
    · exact ⟨cz, labels, List.mem_cons_self _ _, h'⟩
    · obtain ⟨cz', labels', hmem, hin⟩ := patchCall_run h'
      exact ⟨cz', labels', List.mem_cons_of_mem _ hmem, hin⟩

theorem mem_of_mem_patchCalls {events : List Event} {zid rid : String}
    {p : PatchDnsRecord} (h : (zid, rid, p) ∈ patchCalls events) :
    Event.patchCall zid rid p ∈ events := by
  unfold patchCalls at h
  rcases List.mem_filterMap.1 h with ⟨e, he, hf⟩
  cases e with
  | patchCall z r q =>
    simp only [Option.some.injEq, Prod.mk.injEq] at hf
    obtain ⟨h1, h2, h3⟩ := hf
    subst h1
    subst h2
    subst h3
    exact he
  | errorLogged e => simp at hf
  | skipZone z => simp at hf
  | skipRecords l => simp at hf
  | alreadyUpToDate a b c d => simp at hf
  | updated a b c d => simp at hf

/-- C9: every patch call any run issues carries a payload that supplies
only the new address `content`; `comment`, `name`, `proxied`, `tags`
and `ttl` are all left unset. -/
theorem patch_payload_only_content (ipv4 : Option Ipv4Addr) (ipv6 : Option Ipv6Addr)
    (fetch : String → ApiCall (List ListDnsRecords))
    (patch : String → String → ApiCall Unit) (zones : List ListZone)
    (cfg : List (String × List String)) (zid rid : String) (p : PatchDnsRecord)
    (h : (zid, rid, p) ∈ patchCalls (run ipv4 ipv6 fetch patch zones cfg).1) :
    p.comment = none ∧ p.name = none ∧ p.proxied = none ∧ p.tags = none ∧
      p.ttl = none ∧ ∃ ip, p.content = some ip := by
  have hmem := mem_of_mem_patchCalls h
  obtain ⟨cz, labels, _, h1⟩ := patchCall_run hmem
  obtain ⟨zone, data_records, _, _, h2⟩ := patchCall_process_zone h1
  obtain ⟨label, _, h3⟩ := mem_process_labels h2
  rcases mem_process_label h3 with h4 | h4
  · cases h4
  · obtain ⟨record, _, h5⟩ := mem_process_records h4
    obtain ⟨_, _, ip, _, hp, _⟩ := patchCall_process_record h5
    subst hp
    exact ⟨rfl, rfl, rfl, rfl, rfl, ip, rfl⟩

/-! ## A failure-free run: exit codes and trace membership -/

theorem andThen_exit_none {a b : List Event × Option Nat}
    (ha : a.2 = none) (hb : b.2 = none) : (andThen a b).2 = none := by
  obtain ⟨ev, ex⟩ := a
  cases ex
  · exact hb
  · exact absurd ha (by simp)

theorem mem_andThen_left {e : Event} {a b : List Event × Option Nat}
    (h : e ∈ a.1) : e ∈ (andThen a b).1 := by
  obtain ⟨ev, ex⟩ := a
  cases ex
  · exact List.mem_append_left _ h
  · exact h

theorem mem_andThen_right {e : Event} {a b : List Event × Option Nat}
    (ha : a.2 = none) (h : e ∈ b.1) : e ∈ (andThen a b).1 := by
  obtain ⟨ev, ex⟩ := a
  cases ex
  · exact List.mem_append_right _ h
  · exact absurd ha (by simp)

theorem process_record_patch_clean (zone : ListZone) (record : ListDnsRecords)
    (ip : IpAddr) :
    process_record_patch cleanPatch zone record ip =
      ([Event.patchCall zone.id record.id (patchPayload ip),
        Event.updated record.type_ record.name zone.name ip], none) := rfl

theorem process_record_ip_clean_exit (zone : ListZone) (record : ListDnsRecords)
    (ip : IpAddr) : (process_record_ip cleanPatch zone record ip).2 = none := by
  unfold process_record_ip
  cases hc : IpAddr.from_str record.content with
  | none => rfl
  | some cur =>
    show (if cur = ip then
        ([Event.alreadyUpToDate record.type_ record.name zone.name ip], none)
      else process_record_patch cleanPatch zone record ip).2 = none
    split
    · rfl
    · rfl

theorem process_record_clean_exit (ipv4 : Option Ipv4Addr) (ipv6 : Option Ipv6Addr)
    (zone : ListZone) (record : ListDnsRecords) :
    (process_record ipv4 ipv6 cleanPatch zone record).2 = none := by
  unfold process_record
  by_cases hA : to_uppercase record.type_ = "A"
  · rw [if_pos hA]
    cases ipv4 with
    | none => rfl
    | some a => exact process_record_ip_clean_exit zone record (IpAddr.V4 a)
  · rw [if_neg hA]
    by_cases hB : to_uppercase record.type_ = "AAAA"
    · rw [if_pos hB]
      cases ipv6 with
      | none => rfl
      | some b => exact process_record_ip_clean_exit zone record (IpAddr.V6 b)
    · rw [if_neg hB]

theorem process_records_clean_exit (ipv4 : Option Ipv4Addr) (ipv6 : Option Ipv6Addr)
    (zone : ListZone) :
    ∀ records, (process_records ipv4 ipv6 cleanPatch zone records).2 = none
  | [] => rfl
  | r :: rs => by
    unfold process_records
    exact andThen_exit_none (process_record_clean_exit ipv4 ipv6 zone r)
      (process_records_clean_exit ipv4 ipv6 zone rs)

theorem process_label_clean_exit (ipv4 : Option Ipv4Addr) (ipv6 : Option Ipv6Addr)
    (zone : ListZone) (data : List ListDnsRecords) (config_zone config_record : String) :
    (process_label ipv4 ipv6 cleanPatch zone data config_zone config_record).2 = none := by
  simp only [process_label]
  split
  · rfl
  · exact process_records_clean_exit ipv4 ipv6 zone _

theorem process_labels_clean_exit (ipv4 : Option Ipv4Addr) (ipv6 : Option Ipv6Addr)
    (zone : ListZone) (data : List ListDnsRecords) (config_zone : String) :
    ∀ labels, (process_labels ipv4 ipv6 cleanPatch zone data config_zone labels).2 = none
  | [] => rfl
  | l :: ls => by
    unfold process_labels
    exact andThen_exit_none (process_label_clean_exit ipv4 ipv6 zone data config_zone l)
      (process_labels_clean_exit ipv4 ipv6 zone data config_zone ls)

theorem process_zone_clean {ipv4 : Option Ipv4Addr} {ipv6 : Option Ipv6Addr}
    {recs : String → List ListDnsRecords} {zones : List ListZone}
    {config_zone : String} {labels : List String} {zone : ListZone}
    (hz : obtain_zone zones config_zone = some zone) :
    process_zone ipv4 ipv6 (cleanFetch recs) cleanPatch zones config_zone labels =
      process_labels ipv4 ipv6 cleanPatch zone (recs zone.id) config_zone labels := by
  unfold process_zone
  simp only [hz]
  rfl

theorem process_zone_clean_exit (ipv4 : Option Ipv4Addr) (ipv6 : Option Ipv6Addr)
    (recs : String → List ListDnsRecords) (zones : List ListZone)
    (config_zone : String) (labels : List String) :
    (process_zone ipv4 ipv6 (cleanFetch recs) cleanPatch zones config_zone labels).2 =
      none := by
  cases hz : obtain_zone zones config_zone with
  | none =>
    unfold process_zone
    rw [hz]
  | some zone =>
    rw [process_zone_clean hz]
    exact process_labels_clean_exit ipv4 ipv6 zone (recs zone.id) config_zone labels

theorem mem_process_records_clean {ipv4 : Option Ipv4Addr} {ipv6 : Option Ipv6Addr}
    {zone : ListZone} {e : Event} {r : ListDnsRecords} :
    ∀ {records : List ListDnsRecords}, r ∈ records →
      e ∈ (process_record ipv4 ipv6 cleanPatch zone r).1 →
      e ∈ (process_records ipv4 ipv6 cleanPatch zone records).1
  | [], hr, _ => absurd hr (List.not_mem_nil r)
  | x :: xs, hr, he => by
    unfold process_records
    rcases List.mem_cons.1 hr with h | h
    · subst h
      exact mem_andThen_left he
    · exact mem_andThen_right (process_record_clean_exit ipv4 ipv6 zone x)
        (mem_process_records_clean h he)

theorem mem_process_label_clean {ipv4 : Option Ipv4Addr} {ipv6 : Option Ipv6Addr}
    {zone : ListZone} {data : List ListDnsRecords} {config_zone config_record : String}
    {e : Event}
    (h : e ∈ (process_records ipv4 ipv6 cleanPatch zone
      (obtain_records data (record_name config_record config_zone))).1)
    (hne : obtain_records data (record_name config_record config_zone) ≠ []) :
    e ∈ (process_label ipv4 ipv6 cleanPatch zone data config_zone config_record).1 := by
  have hb : (obtain_records data (record_name config_record config_zone)).isEmpty =
      false := by
    cases hrec : obtain_records data (record_name config_record config_zone) with
    | nil => exact absurd hrec hne
    | cons a l => rfl
  simp only [process_label, hb, Bool.false_eq_true, if_false]
  exact h

theorem mem_process_labels_clean {ipv4 : Option Ipv4Addr} {ipv6 : Option Ipv6Addr}
    {zone : ListZone} {data : List ListDnsRecords} {config_zone : String}
    {e : Event} {label : String} :
    ∀ {labels : List String}, label ∈ labels →
      e ∈ (process_label ipv4 ipv6 cleanPatch zone data config_zone label).1 →
      e ∈ (process_labels ipv4 ipv6 cleanPatch zone data config_zone labels).1
  | [], hl, _ => absurd hl (List.not_mem_nil label)
  | x :: xs, hl, he => by
    unfold process_labels
    rcases List.mem_cons.1 hl with h | h
    · subst h
      exact mem_andThen_left he
    · exact mem_andThen_right
        (process_label_clean_exit ipv4 ipv6 zone data config_zone x)
        (mem_process_labels_clean h he)

theorem mem_run_clean {ipv4 : Option Ipv4Addr} {ipv6 : Option Ipv6Addr}
    {recs : String → List ListDnsRecords} {zones : List ListZone} {e : Event}
    {config_zone : String} {labels : List String} :
    ∀ {cfg : List (String × List String)}, (config_zone, labels) ∈ cfg →
      e ∈ (process_zone ipv4 ipv6 (cleanFetch recs) cleanPatch zones
        config_zone labels).1 →
      e ∈ (run ipv4 ipv6 (cleanFetch recs) cleanPatch zones cfg).1
  | [], hc, _ => absurd hc (List.not_mem_nil _)
  | x :: xs, hc, he => by
    unfold run
    rcases List.mem_cons.1 hc with h | h
    · subst h
      exact mem_andThen_left he
    · exact mem_andThen_right
        (process_zone_clean_exit ipv4 ipv6 recs zones x.1 x.2)
        (mem_run_clean h he)

/-- Completeness of patching in a failure-free run: a record selected
under a configured zone and label, whose family address is available and
whose content does not already parse to it, gets a patch call. -/
theorem patch_complete {ipv4 : Option Ipv4Addr} {ipv6 : Option Ipv6Addr}
    {recs : String → List ListDnsRecords} {zones : List ListZone}
    {cfg : List (String × List String)} {config_zone : String} {labels : List String}
    {zone : ListZone} {label : String} {r : ListDnsRecords} {ip : IpAddr}
    (hcfg : (config_zone, labels) ∈ cfg)
    (hz : obtain_zone zones config_zone = some zone)
    (hlab : label ∈ labels)
    (hr : r ∈ obtain_records (recs zone.id) (record_name label config_zone))
    (hdes : desiredIp ipv4 ipv6 r = some ip)
    (hcur : IpAddr.from_str r.content ≠ some ip) :
    Event.patchCall zone.id r.id (patchPayload ip) ∈
      (run ipv4 ipv6 (cleanFetch recs) cleanPatch zones cfg).1 := by
  have h0 : Event.patchCall zone.id r.id (patchPayload ip) ∈
      (process_record ipv4 ipv6 cleanPatch zone r).1 := by
    rw [process_record_of_desired hdes, process_record_ip_not_current hcur,
      process_record_patch_clean]
    exact List.mem_cons_self _ _
  have h1 := mem_process_records_clean hr h0
  have h2 := mem_process_label_clean h1 (List.ne_nil_of_mem hr)
  have h3 := mem_process_labels_clean hlab h2
  have h4 : Event.patchCall zone.id r.id (patchPayload ip) ∈
      (process_zone ipv4 ipv6 (cleanFetch recs) cleanPatch zones
        config_zone labels).1 := by
    rw [process_zone_clean hz]
    exact h3
  exact mem_run_clean hcfg h4

theorem forall₂_mem_right {α β : Type} {R : α → β → Prop} {b : β} :
    ∀ {as : List α} {bs : List β}, List.Forall₂ R as bs → b ∈ bs → ∃ a ∈ as, R a b
  | _, _, List.Forall₂.nil, hb => absurd hb (List.not_mem_nil b)
  | _, _, List.Forall₂.cons h hs, hb => by
    rcases List.mem_cons.1 hb with h1 | h1
    · subst h1
      exact ⟨_, List.mem_cons_self _ _, h⟩
    · obtain ⟨a, ha, hr⟩ := forall₂_mem_right hs h1
      exact ⟨a, List.mem_cons_of_mem _ ha, hr⟩

theorem patchCalls_eq_nil {events : List Event}
    (h : ∀ zid rid p, Event.patchCall zid rid p ∉ events) :
    patchCalls events = [] := by
  unfold patchCalls
  rw [List.filterMap_eq_nil_iff]
  intro e he
  cases e with
  | patchCall z r q => exact absurd he (h z r q)
  | errorLogged x => rfl
  | skipZone x => rfl
  | skipRecords x => rfl
  | alreadyUpToDate a b c d => rfl
  | updated a b c d => rfl

/-- C4: a selected record whose content parses as an IP literal equal
to the resolved address for its family is reported already current with
no patch call; consequently a second reconciliation with unchanged
resolved addresses, against remote records unchanged except by the
first (failure-free) run's own patches, issues zero patch calls. -/
theorem already_current_and_idempotent :
    (∀ (ipv4 : Option Ipv4Addr) (ipv6 : Option Ipv6Addr)
        (patch : String → String → ApiCall Unit) (zone : ListZone)
        (record : ListDnsRecords) (ip : IpAddr),
      desiredIp ipv4 ipv6 record = some ip →
      IpAddr.from_str record.content = some ip →
      process_record ipv4 ipv6 patch zone record =
        ([Event.alreadyUpToDate record.type_ record.name zone.name ip], none)) ∧
    (∀ (ipv4 : Option Ipv4Addr) (ipv6 : Option Ipv6Addr) (zones : List ListZone)
        (cfg : List (String × List String))
        (recs₁ recs₂ : String → List ListDnsRecords),
      (∀ zid, ((recs₁ zid).map (fun r => r.id)).Nodup) →
      (∀ zid, recordsUnchanged
        (run ipv4 ipv6 (cleanFetch recs₁) cleanPatch zones cfg).1 zid
        (recs₁ zid) (recs₂ zid)) →
      patchCalls (run ipv4 ipv6 (cleanFetch recs₂) cleanPatch zones cfg).1 = []) := by
  constructor
  · intro ipv4 ipv6 patch zone record ip hdes hcur
    exact (process_record_of_desired hdes).trans (process_record_ip_current hcur)
  · intro ipv4 ipv6 zones cfg recs₁ recs₂ hnodup hrel
    apply patchCalls_eq_nil
    intro zid rid p hmem
    obtain ⟨cz, labels, hcfg, hz1⟩ := patchCall_run hmem
    obtain ⟨zone, data2, hz, hfetched, hin⟩ := patchCall_process_zone hz1
    have hdata : data2 = recs₂ zone.id := by
      have h0 : fetched (cleanFetch recs₂) zone.id = some (recs₂ zone.id) := rfl
      rw [h0] at hfetched
      exact (Option.some.inj hfetched).symm
    subst hdata
    obtain ⟨label, hlab, hin2⟩ := mem_process_labels hin
    rcases mem_process_label hin2 with habs | hin3
    · cases habs
    · obtain ⟨r₂, hr₂sel, hin4⟩ := mem_process_records hin3
      obtain ⟨hzid, hrid, ip, hdes2, hp, hcur2⟩ := patchCall_process_record hin4
      have hr₂mem : r₂ ∈ recs₂ zone.id := (mem_obtain_records.1 hr₂sel).1
      obtain ⟨r₁, hr₁mem, hrel₁⟩ := forall₂_mem_right (hrel zone.id) hr₂mem
      rcases hrel₁ with ⟨heq, hnopatch⟩ |
        ⟨hid, hname, htype, p', ip', hpc, hpcontent, hparse⟩
      · subst heq
        have hsel1 : r₂ ∈ obtain_records (recs₁ zone.id)
            (record_name label cz) := by
          have hh := mem_obtain_records.1 hr₂sel
          exact mem_obtain_records.2 ⟨hr₁mem, hh.2.1, hh.2.2⟩
        exact hnopatch _ (patch_complete hcfg hz hlab hsel1 hdes2 hcur2)
      · obtain ⟨cz', labels', hcfg', hz1'⟩ := patchCall_run hpc
        obtain ⟨zone', data1, hz', hfetched', hin1'⟩ := patchCall_process_zone hz1'
        have hdata1 : data1 = recs₁ zone'.id := by
          have h0 : fetched (cleanFetch recs₁) zone'.id = some (recs₁ zone'.id) := rfl
          rw [h0] at hfetched'
          exact (Option.some.inj hfetched').symm
        subst hdata1
        obtain ⟨label', hlab', hin2'⟩ := mem_process_labels hin1'
        rcases mem_process_label hin2' with habs | hin3'
        · cases habs
        · obtain ⟨r', hr'sel, hin4'⟩ := mem_process_records hin3'
          obtain ⟨hzid', hrid', ip'', hdes', hp', hcur'⟩ :=
            patchCall_process_record hin4'
          have hr'mem : r' ∈ recs₁ zone.id := by
            rw [hzid']
            exact (mem_obtain_records.1 hr'sel).1
          have hreq : r' = r₁ :=
            List.inj_on_of_nodup_map (hnodup zone.id) hr'mem hr₁mem (hrid'.symm)
          subst hreq
          have hdesr₂ : desiredIp ipv4 ipv6 r₂ = some ip'' := by
            unfold desiredIp at hdes' ⊢
            rw [htype]
            exact hdes'
          have hip : ip = ip'' := by
            rw [hdesr₂] at hdes2
            exact (Option.some.inj hdes2).symm
          have hipcontent : ip' = ip'' := by
            rw [hp'] at hpcontent
            simp only [patchPayload, Option.some.injEq] at hpcontent
            exact hpcontent.symm
          apply hcur2
          rw [hparse, hipcontent, hip]

theorem recsFirst_nodup_ids :
    ∀ zid, ((recsFirst zid).map (fun r => r.id)).Nodup := by
  intro zid
  unfold recsFirst
  by_cases h : zid = "z1"
  · rw [if_pos h]
    decide
  · rw [if_neg h]
    simp

theorem recsSecond_unchanged :
    ∀ zid, recordsUnchanged
      (run (some ipv4Resolved) none (cleanFetch recsFirst) cleanPatch
        [zoneZ1] cfgExample).1
      zid (recsFirst zid) (recsSecond zid) := by
  intro zid
  unfold recordsUnchanged
  by_cases h : zid = "z1"
  · subst h
    have e1 : recsFirst "z1" = [recordR1, recordR2] := rfl
    have e2 : recsSecond "z1" = [recordR1after, recordR2after] := rfl
    rw [e1, e2]
    refine List.Forall₂.cons ?_ (List.Forall₂.cons ?_ List.Forall₂.nil)
    · exact Or.inr ⟨rfl, rfl, rfl, patchPayload (IpAddr.V4 ipv4Resolved),
        IpAddr.V4 ipv4Resolved, by decide, rfl, by decide⟩
    · exact Or.inr ⟨rfl, rfl, rfl, patchPayload (IpAddr.V4 ipv4Resolved),
        IpAddr.V4 ipv4Resolved, by decide, rfl, by decide⟩
  · unfold recsFirst recsSecond
    rw [if_neg h, if_neg h]
    exact List.Forall₂.nil

theorem already_current_and_idempotent_witness :
    process_record (some ipv4Resolved) none patchOk zoneZ1 recordR1after =
      ([Event.alreadyUpToDate "A" "example.com" "example.com"
        (IpAddr.V4 ipv4Resolved)], none) ∧
    patchCalls (run (some ipv4Resolved) none (cleanFetch recsSecond) cleanPatch
      [zoneZ1] cfgExample).1 = [] :=
  ⟨already_current_and_idempotent.1 (some ipv4Resolved) none patchOk zoneZ1
      recordR1after (IpAddr.V4 ipv4Resolved) (by decide) (by decide),
    already_current_and_idempotent.2 (some ipv4Resolved) none [zoneZ1] cfgExample
      recsFirst recsSecond recsFirst_nodup_ids recsSecond_unchanged⟩

theorem patch_payload_only_content_witness :
    (patchPayload (IpAddr.V4 ipv4Resolved)).comment = none ∧
    (patchPayload (IpAddr.V4 ipv4Resolved)).name = none ∧
    (patchPayload (IpAddr.V4 ipv4Resolved)).proxied = none ∧
    (patchPayload (IpAddr.V4 ipv4Resolved)).tags = none ∧
    (patchPayload (IpAddr.V4 ipv4Resolved)).ttl = none ∧
    ∃ ip, (patchPayload (IpAddr.V4 ipv4Resolved)).content = some ip :=
  patch_payload_only_content (some ipv4Resolved) none fetchExample patchOk [zoneZ1]
    cfgExample "z1" "r1" (patchPayload (IpAddr.V4 ipv4Resolved)) (by decide)

end CloudflareDdns
